import Mathlib

/-! Shallow embedding of the mandelbrot-rs viewer (src/main.rs).

Modelling conventions, matching the source file function by function:

* Rust `f64` arithmetic is idealised as exact arithmetic: `ℚ` for the
  escape-time loop and the viewport remap (whose operations `+ - * /` are
  exact there), `ℝ` for the colour pipeline, which uses the irrational
  operation `f64::powf(_, 1.5)`.
* `num::complex::Complex<f64>` becomes the structure `CQ` with the crate's
  componentwise addition and the usual complex multiplication.
* The escape test `z.norm() > 2.0` is embedded as `4 < CQ.normSq z`: over
  exact arithmetic `|z| > 2` holds iff `|z|^2 > 4`, and `normSq` avoids the
  irrational square root inside `Complex::norm`.
* Panics are modelled with `Option`: a function returns `none` exactly when
  the corresponding Rust code panics (checked_mul failure, out-of-bounds
  indexing, `copy_from_slice` length mismatch, a failing `debug_assert`).
* `usize` is modelled as `ℕ`; the `checked_mul` in `MandelbrotGrid::new`
  overflows exactly when the product reaches `2 ^ 64` (64-bit target).
* Side effects irrelevant to the claims (`Instant::now`, `println!`,
  `log`) are dropped.
-/

/-- `const WIDTH: u32 = 1000;` -/
def WIDTH : ℕ := 1000

/-- `const HEIGHT: u32 = 1000;` -/
def HEIGHT : ℕ := 1000

/-- `const MAX_ITERS: usize = 500;` -/
def MAX_ITERS : ℕ := 500

/-- `num::complex::Complex<f64>`, idealised over `ℚ`. -/
structure CQ where
  re : ℚ
  im : ℚ
deriving DecidableEq

instance : Add CQ :=
  ⟨fun a b => ⟨a.re + b.re, a.im + b.im⟩⟩

instance : Mul CQ :=
  ⟨fun a b => ⟨a.re * b.re - a.im * b.im, a.re * b.im + a.im * b.re⟩⟩

/-- Squared absolute value of a complex number; `z.norm()` is its square
root, so `z.norm() > 2.0` is exactly `4 < normSq z`. -/
def CQ.normSq (z : CQ) : ℚ :=
  z.re * z.re + z.im * z.im

/-- The escape test `z.norm() > 2.0` from `get_mondelbrot`, squared. -/
abbrev escapes (z : CQ) : Prop :=
  4 < CQ.normSq z

/-- The loop `for i in 0..=MAX_ITERS { if z.norm() > 2.0 { return i; } z = z * z + c; }`
of `get_mondelbrot`, with the remaining number of loop passes as fuel
(`MAX_ITERS + 1` passes in total) and `i` the current loop index.  When the
loop finishes, the function falls through to `return MAX_ITERS;`. -/
def mondelLoop (c : CQ) : ℕ → ℕ → CQ → ℕ
  | 0, _, _ => MAX_ITERS
  | k + 1, i, z => if 4 < CQ.normSq z then i else mondelLoop c k (i + 1) (z * z + c)

/-- `fn get_mondelbrot(x: f64, y: f64) -> usize` from src/main.rs. -/
def get_mondelbrot (x y : ℚ) : ℕ :=
  mondelLoop ⟨x, y⟩ (MAX_ITERS + 1) 0 ⟨0, 0⟩

/-- The same loop, instrumented to count how many times the squaring step
`z = z * z + c;` executes. -/
def mondelStepsLoop (c : CQ) : ℕ → ℕ → CQ → ℕ
  | 0, n, _ => n
  | k + 1, n, z => if 4 < CQ.normSq z then n else mondelStepsLoop c k (n + 1) (z * z + c)

/-- Number of executions of the squaring step `z = z * z + c;` performed by
`get_mondelbrot x y`. -/
def mondelSquarings (x y : ℚ) : ℕ :=
  mondelStepsLoop ⟨x, y⟩ (MAX_ITERS + 1) 0 ⟨0, 0⟩

/-- The mathematical iterates of `z ↦ z * z + c` starting from `0`: the
value of the loop variable `z` of `get_mondelbrot` at the start of loop
pass `i`. -/
def zIter (c : CQ) : ℕ → CQ
  | 0 => ⟨0, 0⟩
  | n + 1 => zIter c n * zIter c n + c

/-- `struct Cell { steps: usize, color: Vec<u8> }`; bytes are modelled as
naturals below 256. -/
structure Cell where
  steps : ℕ
  color : List ℕ
deriving DecidableEq

/-- The `#[derive(Default)]` instance of `Cell`: zero steps and an empty
colour vector (Rust's `Vec::default()` is empty). -/
def Cell.default : Cell :=
  ⟨0, []⟩

/-- `Cell::new`, which fills the colour with four zero bytes.  It is dead
code: `MandelbrotGrid::new` populates the grid with `Cell::default()`. -/
def Cell.new : Cell :=
  ⟨0, [0, 0, 0, 0]⟩

/-- `struct MandelbrotGrid` from src/main.rs. -/
structure MandelbrotGrid where
  width : ℕ
  height : ℕ
  cells : List Cell
  min_x : ℚ
  max_x : ℚ
  min_y : ℚ
  max_y : ℚ
deriving DecidableEq

/-- `MandelbrotGrid::new`: `width.checked_mul(height).expect("too big")`
panics (`none`) exactly when the `usize` product overflows, i.e. reaches
`2 ^ 64`; otherwise the grid starts with `vec![Cell::default(); size]` and
the viewport `[-2.5, 2.5] × [-2.5, 2.5]`. -/
def MandelbrotGrid.new (width height : ℕ) : Option MandelbrotGrid :=
  if width * height < 2 ^ 64 then
    some ⟨width, height, List.replicate (width * height) Cell.default, -2.5, 2.5, -2.5, 2.5⟩
  else none

/-- Rust `f64` truncation toward zero, used by the `%` operator on `f64`. -/
noncomputable def rustTrunc (x : ℝ) : ℝ :=
  if 0 ≤ x then (⌊x⌋ : ℤ) else (⌈x⌉ : ℤ)

/-- The Rust `%` operator on `f64`: `a - b * (a / b).trunc()`, idealised
over `ℝ`. -/
noncomputable def rustFmod (a b : ℝ) : ℝ :=
  a - b * rustTrunc (a / b)

/-- The Rust cast `expr as u8` on an `f64`: truncate toward zero and
saturate into `[0, 255]`. -/
noncomputable def f64_as_u8 (x : ℝ) : ℕ :=
  min 255 (⌊max x 0⌋).toNat

/-- `fn hsl_to_rgba(h: f64, s: f64, l: f64) -> Vec<u8>` from src/main.rs. -/
noncomputable def hsl_to_rgba (h s l : ℝ) : List ℕ :=
  let h_norm := h / 360
  let s_norm := s / 100
  let l_norm := l / 100
  let c := (1 - |2 * l_norm - 1|) * s_norm
  let x := c * (1 - |rustFmod (h_norm * 6) 2 - 1|)
  let m := l_norm - c / 2
  let rgb : ℝ × ℝ × ℝ :=
    if h_norm < 1 / 6 then (c, x, 0)
    else if h_norm < 2 / 6 then (x, c, 0)
    else if h_norm < 3 / 6 then (0, c, x)
    else if h_norm < 4 / 6 then (0, x, c)
    else if h_norm < 5 / 6 then (x, 0, c)
    else (c, 0, x)
  [f64_as_u8 ((rgb.1 + m) * 255), f64_as_u8 ((rgb.2.1 + m) * 255),
    f64_as_u8 ((rgb.2.2 + m) * 255), 255]

/-- `fn steps_to_rgb(steps: usize) -> Vec<u8>` from src/main.rs.  The dead
local `r` of the source is dropped; the hue is
`f64::powf(norm_steps * 360.0, 1.5) % 360.0`. -/
noncomputable def steps_to_rgb (steps : ℕ) : List ℕ :=
  let norm_steps : ℝ := (steps : ℝ) / (MAX_ITERS : ℝ)
  hsl_to_rgba (rustFmod (Real.rpow (norm_steps * 360) 1.5) 360) 50 (norm_steps * 100)

/-- The body of the nested loop of `MandelbrotGrid::update` for pixel
`(x, y)`: remap to plane coordinates, run `get_mondelbrot`, colour the
steps.  The remap is the source's
`((x as f64 - 0.) / (self.width as f64 - 0.)) * (self.max_x - self.min_x) + self.min_x`. -/
noncomputable def cellFor (g : MandelbrotGrid) (x y : ℕ) : Cell :=
  let steps := get_mondelbrot
    (((x : ℚ) - 0) / ((g.width : ℚ) - 0) * (g.max_x - g.min_x) + g.min_x)
    (((y : ℚ) - 0) / ((g.height : ℚ) - 0) * (g.max_y - g.min_y) + g.min_y)
  ⟨steps, steps_to_rgb steps⟩

/-- The inner loop `for x in 0..self.width` of `MandelbrotGrid::update` for
a fixed row `y`: each pass writes the cell at `idx = x + y * width`,
panicking (`none`) if the index is out of bounds. -/
def runWrites (wd : ℕ) (mk : ℕ → ℕ → Cell) (y : ℕ) : List ℕ → List Cell → Option (List Cell)
  | [], cells => some cells
  | x :: xs, cells =>
    if x + y * wd < cells.length then
      runWrites wd mk y xs (cells.set (x + y * wd) (mk x y))
    else none

/-- The outer loop `for y in 0..self.height` of `MandelbrotGrid::update`. -/
def runRows (wd : ℕ) (mk : ℕ → ℕ → Cell) : List ℕ → List Cell → Option (List Cell)
  | [], cells => some cells
  | y :: ys, cells => (runWrites wd mk y (List.range wd) cells).bind (runRows wd mk ys)

/-- `fn update(&mut self)` from src/main.rs: the nested per-pixel recompute
(the timing `println!` is dropped). -/
noncomputable def MandelbrotGrid.update (g : MandelbrotGrid) : Option MandelbrotGrid :=
  (runRows g.width (cellFor g) (List.range g.height) g.cells).map fun cs => { g with cells := cs }

/-- The `zip` of cells with `screen.chunks_exact_mut(4)` in
`MandelbrotGrid::draw`: each pair runs `pix.copy_from_slice(&c.color)`,
which panics (`none`) when `c.color` is not exactly 4 bytes long. -/
def copyCells : List Cell → List ℕ → Option (List ℕ)
  | [], screen => some screen
  | c :: cs, screen =>
    if screen.length < 4 then some screen
    else if c.color.length = 4 then
      (copyCells cs (screen.drop 4)).map fun rest => c.color ++ rest
    else none

/-- `fn draw(&mut self, screen: &mut [u8])` from src/main.rs, including its
`debug_assert_eq!(screen.len(), 4 * self.cells.len())` (debug build). -/
def MandelbrotGrid.draw (g : MandelbrotGrid) (screen : List ℕ) : Option (List ℕ) :=
  if screen.length = 4 * g.cells.length then copyCells g.cells screen else none

/-- The `VirtualKeyCode::Left` handler in `main`:
`x_step = (max_x - min_x) * 0.2`, subtracted from both `min_x` and `max_x`,
followed by `update()`. -/
noncomputable def panLeft (g : MandelbrotGrid) : Option MandelbrotGrid :=
  MandelbrotGrid.update
    { g with
      min_x := g.min_x - (g.max_x - g.min_x) * 0.2
      max_x := g.max_x - (g.max_x - g.min_x) * 0.2 }

/-- The `VirtualKeyCode::Right` handler in `main`. -/
noncomputable def panRight (g : MandelbrotGrid) : Option MandelbrotGrid :=
  MandelbrotGrid.update
    { g with
      min_x := g.min_x + (g.max_x - g.min_x) * 0.2
      max_x := g.max_x + (g.max_x - g.min_x) * 0.2 }

/-- The `VirtualKeyCode::Up` handler in `main`:
`y_step = (max_y - min_y) * 0.2`, subtracted from both `min_y` and `max_y`. -/
noncomputable def panUp (g : MandelbrotGrid) : Option MandelbrotGrid :=
  MandelbrotGrid.update
    { g with
      min_y := g.min_y - (g.max_y - g.min_y) * 0.2
      max_y := g.max_y - (g.max_y - g.min_y) * 0.2 }

/-- The `VirtualKeyCode::Down` handler in `main`. -/
noncomputable def panDown (g : MandelbrotGrid) : Option MandelbrotGrid :=
  MandelbrotGrid.update
    { g with
      min_y := g.min_y + (g.max_y - g.min_y) * 0.2
      max_y := g.max_y + (g.max_y - g.min_y) * 0.2 }

/-- The `VirtualKeyCode::W` (zoom in) handler in `main`. -/
noncomputable def zoomIn (g : MandelbrotGrid) : Option MandelbrotGrid :=
  MandelbrotGrid.update
    { g with
      min_x := g.min_x + (g.max_x - g.min_x) * 0.2
      max_x := g.max_x - (g.max_x - g.min_x) * 0.2
      min_y := g.min_y + (g.max_y - g.min_y) * 0.2
      max_y := g.max_y - (g.max_y - g.min_y) * 0.2 }

/-- The `VirtualKeyCode::S` (zoom out) handler in `main`. -/
noncomputable def zoomOut (g : MandelbrotGrid) : Option MandelbrotGrid :=
  MandelbrotGrid.update
    { g with
      min_x := g.min_x - (g.max_x - g.min_x) * 0.2
      max_x := g.max_x + (g.max_x - g.min_x) * 0.2
      min_y := g.min_y - (g.max_y - g.min_y) * 0.2
      max_y := g.max_y + (g.max_y - g.min_y) * 0.2 }

/-- One keyboard-driven operation of the event loop in `main` that touches
the grid (`Space` re-runs `update` unchanged). -/
inductive GridStep : MandelbrotGrid → MandelbrotGrid → Prop where
  | update : ∀ g g', g.update = some g' → GridStep g g'
  | pan_left : ∀ g g', panLeft g = some g' → GridStep g g'
  | pan_right : ∀ g g', panRight g = some g' → GridStep g g'
  | pan_up : ∀ g g', panUp g = some g' → GridStep g g'
  | pan_down : ∀ g g', panDown g = some g' → GridStep g g'
  | zoom_in : ∀ g g', zoomIn g = some g' → GridStep g g'
  | zoom_out : ∀ g g', zoomOut g = some g' → GridStep g g'

/-- The concrete 1×1 grid produced by `MandelbrotGrid.new 1 1`, used as the
concrete input of the witnesses below. -/
def sampleGrid : MandelbrotGrid :=
  ⟨1, 1, [Cell.default], -2.5, 2.5, -2.5, 2.5⟩

lemma CQ.add_def (a b : CQ) : a + b = ⟨a.re + b.re, a.im + b.im⟩ := rfl

lemma CQ.mul_def (a b : CQ) : a * b = ⟨a.re * b.re - a.im * b.im, a.re * b.im + a.im * b.re⟩ := rfl

lemma mondelLoop_found (c : CQ) :
    ∀ k i j : ℕ, i ≤ j → j < i + k → escapes (zIter c j) →
      (∀ m, i ≤ m → m < j → ¬ escapes (zIter c m)) →
      mondelLoop c k i (zIter c i) = j := by
  intro k
  induction k with
  | zero => intro i j hij hlt _ _; omega
  | succ k ih =>
    intro i j hij hlt hesc hmin
    by_cases h : escapes (zIter c i)
    · have hji : j = i := by
        by_contra hne
        exact hmin i le_rfl (by omega) h
      subst hji
      simp [mondelLoop, h]
    · have hilt : i < j := by
        rcases Nat.eq_or_lt_of_le hij with heq | h'
        · subst heq; exact absurd hesc h
        · exact h'
      have hz : zIter c i * zIter c i + c = zIter c (i + 1) := rfl
      have : mondelLoop c (k + 1) i (zIter c i)
          = mondelLoop c k (i + 1) (zIter c (i + 1)) := by
        simp [mondelLoop, h, hz]
      rw [this]
      exact ih (i + 1) j hilt (by omega) hesc (fun m hm1 hm2 => hmin m (by omega) hm2)

lemma mondelLoop_notfound (c : CQ) :
    ∀ k i : ℕ, (∀ m, i ≤ m → m < i + k → ¬ escapes (zIter c m)) →
      mondelLoop c k i (zIter c i) = MAX_ITERS := by
  intro k
  induction k with
  | zero => intro i _; simp [mondelLoop]
  | succ k ih =>
    intro i hall
    have h : ¬ escapes (zIter c i) := hall i le_rfl (by omega)
    have hz : zIter c i * zIter c i + c = zIter c (i + 1) := rfl
    have hstep : mondelLoop c (k + 1) i (zIter c i)
        = mondelLoop c k (i + 1) (zIter c (i + 1)) := by
      simp [mondelLoop, h, hz]
    rw [hstep]
    exact ih (i + 1) (fun m hm1 hm2 => hall m (by omega) (by omega))

lemma mondelLoop_le (c : CQ) :
    ∀ (k i : ℕ) (z : CQ), mondelLoop c k i z ≤ max MAX_ITERS (i + k - 1) := by
  intro k
  induction k with
  | zero => intro i z; simp [mondelLoop]
  | succ k ih =>
    intro i z
    by_cases h : escapes z
    · simp only [mondelLoop, if_pos h]
      omega
    · simp only [mondelLoop, if_neg h]
      have := ih (i + 1) (z * z + c)
      omega

lemma mondelStepsLoop_le (c : CQ) :
    ∀ (k n : ℕ) (z : CQ), mondelStepsLoop c k n z ≤ n + k := by
  intro k
  induction k with
  | zero => intro n z; simp [mondelStepsLoop]
  | succ k ih =>
    intro n z
    by_cases h : escapes z
    · simp only [mondelStepsLoop, if_pos h]
      omega
    · simp only [mondelStepsLoop, if_neg h]
      have := ih (n + 1) (z * z + c)
      omega

lemma zeroCQ_step : (⟨0, 0⟩ : CQ) * ⟨0, 0⟩ + ⟨0, 0⟩ = (⟨0, 0⟩ : CQ) := by
  simp [CQ.mul_def, CQ.add_def]

lemma mondelStepsLoop_zero : ∀ k n : ℕ, mondelStepsLoop ⟨0, 0⟩ k n ⟨0, 0⟩ = n + k := by
  intro k
  induction k with
  | zero => intro n; simp [mondelStepsLoop]
  | succ k ih =>
    intro n
    have h : ¬ (4 < CQ.normSq ⟨0, 0⟩) := by norm_num [CQ.normSq]
    simp only [mondelStepsLoop, if_neg h, zeroCQ_step]
    rw [ih]
    omega

lemma runWrites_spec (wd : ℕ) (mk : ℕ → ℕ → Cell) (y : ℕ) :
    ∀ (xs : List ℕ) (cells : List Cell), xs.Nodup →
      (∀ x ∈ xs, x + y * wd < cells.length) →
      ∃ cs, runWrites wd mk y xs cells = some cs ∧ cs.length = cells.length ∧
        (∀ x ∈ xs, cs.get? (x + y * wd) = some (mk x y)) ∧
        (∀ j, (∀ x ∈ xs, x + y * wd ≠ j) → cs.get? j = cells.get? j) := by
  intro xs
  induction xs with
  | nil =>
    intro cells _ _
    exact ⟨cells, rfl, rfl, by simp, fun j _ => rfl⟩
  | cons x xs ih =>
    intro cells hnd hbound
    have hx : x + y * wd < cells.length := hbound x (List.mem_cons_self x xs)
    obtain ⟨hxmem, hnd'⟩ := List.nodup_cons.mp hnd
    obtain ⟨cs, hrun, hlen, hmem, hother⟩ :=
      ih (cells.set (x + y * wd) (mk x y)) hnd'
        (fun x' hx' => by
          rw [List.length_set]
          exact hbound x' (List.mem_cons_of_mem _ hx'))
    refine ⟨cs, ?_, ?_, ?_, ?_⟩
    · simp only [runWrites, if_pos hx]
      exact hrun
    · rw [hlen, List.length_set]
    · intro x' hx'
      rcases List.mem_cons.mp hx' with rfl | hx'mem
      · have hne : ∀ x'' ∈ xs, x'' + y * wd ≠ x' + y * wd := by
          intro x'' h'' heq
          have : x'' = x' := by omega
          exact hxmem (this ▸ h'')
        rw [hother _ hne]
        exact List.get?_set_eq_of_lt _ hx
      · exact hmem x' hx'mem
    · intro j hj
      rw [hother j (fun x'' h'' => hj x'' (List.mem_cons_of_mem _ h''))]
      exact List.get?_set_ne _ _ (hj x (List.mem_cons_self x xs))

lemma runRows_spec (wd : ℕ) (mk : ℕ → ℕ → Cell) :
    ∀ (ys : List ℕ) (cells : List Cell), ys.Nodup →
      (∀ y ∈ ys, y * wd + wd ≤ cells.length) →
      ∃ cs, runRows wd mk ys cells = some cs ∧ cs.length = cells.length ∧
        (∀ y ∈ ys, ∀ x, x < wd → cs.get? (x + y * wd) = some (mk x y)) ∧
        (∀ j, (∀ y ∈ ys, ¬ (y * wd ≤ j ∧ j < y * wd + wd)) → cs.get? j = cells.get? j) := by
  intro ys
  induction ys with
  | nil =>
    intro cells _ _
    exact ⟨cells, rfl, rfl, by simp, fun j _ => rfl⟩
  | cons y ys ih =>
    intro cells hnd hbound
    obtain ⟨hymem, hnd'⟩ := List.nodup_cons.mp hnd
    have hb1 : ∀ x ∈ List.range wd, x + y * wd < cells.length := by
      intro x hx
      have hxlt := List.mem_range.mp hx
      have := hbound y (List.mem_cons_self y ys)
      omega
    obtain ⟨cs₁, hrun₁, hlen₁, hmem₁, hoth₁⟩ :=
      runWrites_spec wd mk y (List.range wd) cells (List.nodup_range wd) hb1
    obtain ⟨cs₂, hrun₂, hlen₂, hmem₂, hoth₂⟩ :=
      ih cs₁ hnd' (fun y' hy' => by
        rw [hlen₁]
        exact hbound y' (List.mem_cons_of_mem _ hy'))
    refine ⟨cs₂, ?_, by rw [hlen₂, hlen₁], ?_, ?_⟩
    · simp only [runRows, hrun₁, Option.bind_some]
      exact hrun₂
    · intro y' hy' x hxlt
      rcases List.mem_cons.mp hy' with rfl | hy'mem
      · have hdisj : ∀ y'' ∈ ys, ¬ (y'' * wd ≤ x + y' * wd ∧ x + y' * wd < y'' * wd + wd) := by
          intro y'' hy'' hcontra
          have hne : y'' ≠ y' := fun he => hymem (he ▸ hy'')
          rcases Nat.lt_or_ge y'' y' with hlt | hge
          · have h1 : y'' + 1 ≤ y' := hlt
            have h2 : (y'' + 1) * wd ≤ y' * wd := Nat.mul_le_mul_right wd h1
            have h3 : (y'' + 1) * wd = y'' * wd + wd := by ring
            omega
          · have h1 : y' + 1 ≤ y'' := lt_of_le_of_ne hge (Ne.symm hne)
            have h2 : (y' + 1) * wd ≤ y'' * wd := Nat.mul_le_mul_right wd h1
            have h3 : (y' + 1) * wd = y' * wd + wd := by ring
            omega
        rw [hoth₂ _ hdisj]
        exact hmem₁ x (List.mem_range.mpr hxlt)
      · exact hmem₂ y' hy'mem x hxlt
    · intro j hj
      rw [hoth₂ j (fun y'' h'' => hj y'' (List.mem_cons_of_mem _ h''))]
      apply hoth₁
      intro x hx heq
      have hxlt := List.mem_range.mp hx
      have := hj y (List.mem_cons_self y ys)
      omega

lemma runWrites_length (wd : ℕ) (mk : ℕ → ℕ → Cell) (y : ℕ) :
    ∀ (xs : List ℕ) (cells cs : List Cell),
      runWrites wd mk y xs cells = some cs → cs.length = cells.length := by
  intro xs
  induction xs with
  | nil =>
    intro cells cs h
    simp only [runWrites, Option.some.injEq] at h
    rw [← h]
  | cons x xs ih =>
    intro cells cs h
    by_cases hx : x + y * wd < cells.length
    · simp only [runWrites, if_pos hx] at h
      rw [ih _ _ h, List.length_set]
    · simp [runWrites, if_neg hx] at h

lemma runRows_length (wd : ℕ) (mk : ℕ → ℕ → Cell) :
    ∀ (ys : List ℕ) (cells cs : List Cell),
      runRows wd mk ys cells = some cs → cs.length = cells.length := by
  intro ys
  induction ys with
  | nil =>
    intro cells cs h
    simp only [runRows, Option.some.injEq] at h
    rw [← h]
  | cons y ys ih =>
    intro cells cs h
    simp only [runRows, Option.bind_eq_some] at h
    obtain ⟨cs₁, h₁, h₂⟩ := h
    rw [ih _ _ h₂, runWrites_length wd mk y _ _ _ h₁]

lemma update_spec (g : MandelbrotGrid) (hg : g.width * g.height ≤ g.cells.length) :
    ∃ g', g.update = some g' ∧ g'.width = g.width ∧ g'.height = g.height ∧
      g'.min_x = g.min_x ∧ g'.max_x = g.max_x ∧ g'.min_y = g.min_y ∧ g'.max_y = g.max_y ∧
      g'.cells.length = g.cells.length ∧
      ∀ x y, x < g.width → y < g.height →
        g'.cells.get? (x + y * g.width) = some (cellFor g x y) := by
  have hbound : ∀ y ∈ List.range g.height, y * g.width + g.width ≤ g.cells.length := by
    intro y hy
    have hylt := List.mem_range.mp hy
    have h1 : y + 1 ≤ g.height := hylt
    have h2 : (y + 1) * g.width ≤ g.height * g.width := Nat.mul_le_mul_right _ h1
    have h3 : (y + 1) * g.width = y * g.width + g.width := by ring
    have h4 : g.height * g.width = g.width * g.height := Nat.mul_comm _ _
    omega
  obtain ⟨cs, hrun, hlen, hmem, _⟩ :=
    runRows_spec g.width (cellFor g) (List.range g.height) g.cells
      (List.nodup_range g.height) hbound
  refine ⟨{ g with cells := cs }, ?_, rfl, rfl, rfl, rfl, rfl, rfl, hlen, ?_⟩
  · simp only [MandelbrotGrid.update, hrun, Option.map_some']
  · intro x y hx hy
    exact hmem y (List.mem_range.mpr hy) x hx

lemma update_fields (g g' : MandelbrotGrid) (h : g.update = some g') :
    g'.width = g.width ∧ g'.height = g.height ∧ g'.min_x = g.min_x ∧ g'.max_x = g.max_x ∧
      g'.min_y = g.min_y ∧ g'.max_y = g.max_y ∧ g'.cells.length = g.cells.length := by
  simp only [MandelbrotGrid.update, Option.map_eq_some'] at h
  obtain ⟨cs, hrun, rfl⟩ := h
  exact ⟨rfl, rfl, rfl, rfl, rfl, rfl, runRows_length _ _ _ _ _ hrun⟩

lemma new_spec (w h : ℕ) (g : MandelbrotGrid) (hnew : MandelbrotGrid.new w h = some g) :
    g = ⟨w, h, List.replicate (w * h) Cell.default, -2.5, 2.5, -2.5, 2.5⟩ := by
  simp only [MandelbrotGrid.new] at hnew
  split at hnew
  · exact (Option.some.injEq _ _).mp hnew |>.symm
  · exact absurd hnew (by simp)

lemma steps_to_rgb_length (steps : ℕ) : (steps_to_rgb steps).length = 4 := rfl

lemma steps_to_rgb_alpha (steps : ℕ) : (steps_to_rgb steps).get? 3 = some 255 := rfl

lemma gridStep_preserves {a b : MandelbrotGrid} (h : GridStep a b) :
    b.width = a.width ∧ b.height = a.height ∧ b.cells.length = a.cells.length := by
  cases h with
  | update hu =>
    obtain ⟨h1, h2, _, _, _, _, h7⟩ := update_fields _ _ hu
    exact ⟨h1, h2, h7⟩
  | pan_left hu =>
    obtain ⟨h1, h2, _, _, _, _, h7⟩ := update_fields _ _ hu
    exact ⟨h1, h2, h7⟩
  | pan_right hu =>
    obtain ⟨h1, h2, _, _, _, _, h7⟩ := update_fields _ _ hu
    exact ⟨h1, h2, h7⟩
  | pan_up hu =>
    obtain ⟨h1, h2, _, _, _, _, h7⟩ := update_fields _ _ hu
    exact ⟨h1, h2, h7⟩
  | pan_down hu =>
    obtain ⟨h1, h2, _, _, _, _, h7⟩ := update_fields _ _ hu
    exact ⟨h1, h2, h7⟩
  | zoom_in hu =>
    obtain ⟨h1, h2, _, _, _, _, h7⟩ := update_fields _ _ hu
    exact ⟨h1, h2, h7⟩
  | zoom_out hu =>
    obtain ⟨h1, h2, _, _, _, _, h7⟩ := update_fields _ _ hu
    exact ⟨h1, h2, h7⟩

lemma copyCells_some :
    ∀ (cells : List Cell) (screen : List ℕ),
      (∀ c ∈ cells, c.color.length = 4) → screen.length = 4 * cells.length →
      ∃ out, copyCells cells screen = some out := by
  intro cells
  induction cells with
  | nil => intro screen _ _; exact ⟨screen, rfl⟩
  | cons c cs ih =>
    intro screen hcol hlen
    have hlen' : screen.length = 4 * cs.length + 4 := by
      rw [hlen, List.length_cons]
      ring
    have h4 : ¬ screen.length < 4 := by omega
    have hc : c.color.length = 4 := hcol c (List.mem_cons_self c cs)
    obtain ⟨out, hout⟩ := ih (screen.drop 4)
      (fun c' h' => hcol c' (List.mem_cons_of_mem _ h'))
      (by rw [List.length_drop]; omega)
    exact ⟨c.color ++ out, by simp only [copyCells, if_neg h4, if_pos hc, hout, Option.map_some']⟩

lemma update_cells_color_length (g g' : MandelbrotGrid)
    (hg : g.cells.length = g.width * g.height) (hu : g.update = some g') :
    ∀ c ∈ g'.cells, c.color.length = 4 := by
  obtain ⟨g'', hu', _, _, _, _, _, _, hlen, hpix⟩ := update_spec g hg.ge
  rw [hu] at hu'
  obtain rfl : g' = g'' := by injection hu'
  intro c hc
  obtain ⟨j, hj⟩ := List.mem_iff_get?.mp hc
  have hjlt : j < g'.cells.length := by
    by_contra hge
    rw [List.get?_eq_none.mpr (by omega)] at hj
    exact Option.noConfusion hj
  rw [hlen, hg] at hjlt
  have hwpos : 0 < g.width := by
    rcases Nat.eq_zero_or_pos g.width with h0 | h
    · rw [h0] at hjlt; omega
    · exact h
  have hx : j % g.width < g.width := Nat.mod_lt _ hwpos
  have hy : j / g.width < g.height := Nat.div_lt_of_lt_mul (by rw [Nat.mul_comm] at hjlt ⊢; exact hjlt)
  have hsplit : j % g.width + (j / g.width) * g.width = j := Nat.mod_add_div' j g.width
  have := hpix (j % g.width) (j / g.width) hx hy
  rw [hsplit, hj] at this
  obtain rfl : c = cellFor g (j % g.width) (j / g.width) := by injection this
  simp only [cellFor]
  exact steps_to_rgb_length _

lemma sampleGrid_new : MandelbrotGrid.new 1 1 = some sampleGrid := rfl

/-- C2: for every input pair `(x, y)`, `get_mondelbrot x y` returns the
smallest index `i` with `0 ≤ i ≤ MAX_ITERS` such that the `i`-th iterate of
`z ↦ z * z + c` (from `z = 0`, `c = x + y·i`) escapes, i.e. has norm
strictly greater than `2` (equivalently `normSq > 4`), and returns
`MAX_ITERS` when no iterate with index at most `MAX_ITERS` escapes. -/
theorem get_mondelbrot_min_escape (x y : ℚ) :
    ((∃ i, i ≤ MAX_ITERS ∧ escapes (zIter ⟨x, y⟩ i)) →
      get_mondelbrot x y ≤ MAX_ITERS ∧ escapes (zIter ⟨x, y⟩ (get_mondelbrot x y)) ∧
      ∀ j, j < get_mondelbrot x y → ¬ escapes (zIter ⟨x, y⟩ j)) ∧
    ((∀ i, i ≤ MAX_ITERS → ¬ escapes (zIter ⟨x, y⟩ i)) →
      get_mondelbrot x y = MAX_ITERS) := by
  have key : get_mondelbrot x y = mondelLoop ⟨x, y⟩ (MAX_ITERS + 1) 0 (zIter ⟨x, y⟩ 0) := rfl
  constructor
  · rintro ⟨i, hi, hesc⟩
    have hex : ∃ n, escapes (zIter ⟨x, y⟩ n) := ⟨i, hesc⟩
    have hfind : Nat.find hex ≤ i := Nat.find_min' hex hesc
    have heq : get_mondelbrot x y = Nat.find hex := by
      rw [key]
      exact mondelLoop_found ⟨x, y⟩ (MAX_ITERS + 1) 0 (Nat.find hex) (Nat.zero_le _)
        (by omega) (Nat.find_spec hex) (fun m _ hm => Nat.find_min hex hm)
    rw [heq]
    exact ⟨hfind.trans hi, Nat.find_spec hex, fun j hj => Nat.find_min hex hj⟩
  · intro hall
    rw [key]
    exact mondelLoop_notfound ⟨x, y⟩ (MAX_ITERS + 1) 0 (fun m _ hm => hall m (by omega))

/-- Witness for C2 at `(x, y) = (3, 0)`: the first iterate is `3`, which
escapes, and indeed no smaller index does. -/
theorem get_mondelbrot_min_escape_witness :
    (∃ i, i ≤ MAX_ITERS ∧ escapes (zIter ⟨3, 0⟩ i)) ∧
      (get_mondelbrot 3 0 ≤ MAX_ITERS ∧ escapes (zIter ⟨3, 0⟩ (get_mondelbrot 3 0)) ∧
        ∀ j, j < get_mondelbrot 3 0 → ¬ escapes (zIter ⟨3, 0⟩ j)) := by
  have hesc : escapes (zIter ⟨3, 0⟩ 1) := by
    norm_num [zIter, CQ.mul_def, CQ.add_def, CQ.normSq]
  have hex : ∃ i, i ≤ MAX_ITERS ∧ escapes (zIter ⟨3, 0⟩ i) :=
    ⟨1, by norm_num [MAX_ITERS], hesc⟩
  exact ⟨hex, (get_mondelbrot_min_escape 3 0).1 hex⟩

/-- C3 counterexample: at `c = 0` the orbit never escapes, so the loop body
of `get_mondelbrot` runs for every `i in 0..=MAX_ITERS` and the squaring
step `z = z * z + c` executes `MAX_ITERS + 1 = 501` times — more than the
claimed bound of `MAX_ITERS = 500`. -/
theorem squaring_count_counterexample :
    mondelSquarings 0 0 = MAX_ITERS + 1 ∧ MAX_ITERS < mondelSquarings 0 0 := by
  have h : mondelSquarings 0 0 = MAX_ITERS + 1 := by
    show mondelStepsLoop ⟨0, 0⟩ (MAX_ITERS + 1) 0 ⟨0, 0⟩ = MAX_ITERS + 1
    rw [mondelStepsLoop_zero]
    omega
  exact ⟨h, by omega⟩

/-- C3 (amended): `get_mondelbrot` terminates on every input — it is a total
function, its loop bounded by the fuel `MAX_ITERS + 1` — performs at most
`MAX_ITERS + 1 = 501` iterations of the squaring step (not `MAX_ITERS`,
which the `0..=MAX_ITERS` inclusive loop exceeds by one), and its returned
value never exceeds `MAX_ITERS`. -/
theorem get_mondelbrot_bounded (x y : ℚ) :
    get_mondelbrot x y ≤ MAX_ITERS ∧ mondelSquarings x y ≤ MAX_ITERS + 1 := by
  constructor
  · have h := mondelLoop_le ⟨x, y⟩ (MAX_ITERS + 1) 0 ⟨0, 0⟩
    have hmax : max MAX_ITERS (0 + (MAX_ITERS + 1) - 1) = MAX_ITERS := by omega
    rw [hmax] at h
    exact h
  · exact mondelStepsLoop_le ⟨x, y⟩ (MAX_ITERS + 1) 0 ⟨0, 0⟩

/-- C6: for every `steps` with `0 ≤ steps ≤ MAX_ITERS` (the lower bound is
implicit in `ℕ`), `steps_to_rgb steps` is a vector of exactly 4 bytes whose
fourth (alpha) byte is `255`: every colour produced is fully opaque. -/
theorem steps_to_rgb_rgba (steps : ℕ) (_hs : steps ≤ MAX_ITERS) :
    (steps_to_rgb steps).length = 4 ∧ (steps_to_rgb steps).get? 3 = some 255 :=
  ⟨steps_to_rgb_length steps, steps_to_rgb_alpha steps⟩

/-- Witness for C6 at `steps = 0`. -/
theorem steps_to_rgb_rgba_witness :
    0 ≤ MAX_ITERS ∧ (steps_to_rgb 0).length = 4 ∧ (steps_to_rgb 0).get? 3 = some 255 :=
  ⟨Nat.zero_le _, (steps_to_rgb_rgba 0 (Nat.zero_le _)).1, (steps_to_rgb_rgba 0 (Nat.zero_le _)).2⟩

/-- C1: after `MandelbrotGrid::update` returns on a grid satisfying the
constructor invariant `cells.len() = width * height`, the cell at index
`px + py * width` (for `px < width`, `py < height`) has `steps` equal to
`get_mondelbrot` of the linearly remapped plane coordinates
`(px / width) * (max_x - min_x) + min_x` (the source's `- 0.` terms cancel)
and `(py / height) * (max_y - min_y) + min_y`, and `color` equal to
`steps_to_rgb` of that steps value. -/
theorem update_pixel (g : MandelbrotGrid) (hg : g.cells.length = g.width * g.height)
    (px py : ℕ) (hx : px < g.width) (hy : py < g.height) :
    ∃ g', g.update = some g' ∧
      g'.cells.get? (px + py * g.width) = some
        ⟨get_mondelbrot ((px : ℚ) / (g.width : ℚ) * (g.max_x - g.min_x) + g.min_x)
            ((py : ℚ) / (g.height : ℚ) * (g.max_y - g.min_y) + g.min_y),
          steps_to_rgb
            (get_mondelbrot ((px : ℚ) / (g.width : ℚ) * (g.max_x - g.min_x) + g.min_x)
              ((py : ℚ) / (g.height : ℚ) * (g.max_y - g.min_y) + g.min_y))⟩ := by
  obtain ⟨g', hu, _, _, _, _, _, _, _, hpix⟩ := update_spec g hg.ge
  refine ⟨g', hu, ?_⟩
  rw [hpix px py hx hy]
  simp only [cellFor, sub_zero]

/-- Witness for C1 on the 1×1 grid from `new 1 1`, pixel `(0, 0)`. -/
theorem update_pixel_witness :
    sampleGrid.cells.length = sampleGrid.width * sampleGrid.height ∧
    0 < sampleGrid.width ∧ 0 < sampleGrid.height ∧
    ∃ g', sampleGrid.update = some g' ∧
      g'.cells.get? (0 + 0 * sampleGrid.width) = some
        ⟨get_mondelbrot
            (((0 : ℕ) : ℚ) / (sampleGrid.width : ℚ) * (sampleGrid.max_x - sampleGrid.min_x)
              + sampleGrid.min_x)
            (((0 : ℕ) : ℚ) / (sampleGrid.height : ℚ) * (sampleGrid.max_y - sampleGrid.min_y)
              + sampleGrid.min_y),
          steps_to_rgb
            (get_mondelbrot
              (((0 : ℕ) : ℚ) / (sampleGrid.width : ℚ) * (sampleGrid.max_x - sampleGrid.min_x)
                + sampleGrid.min_x)
              (((0 : ℕ) : ℚ) / (sampleGrid.height : ℚ) * (sampleGrid.max_y - sampleGrid.min_y)
                + sampleGrid.min_y))⟩ :=
  ⟨rfl, by decide, by decide, update_pixel sampleGrid rfl 0 0 (by decide) (by decide)⟩

/-- C5 counterexample: `new 1 1` succeeds, yet `draw` on the fresh grid — no
`update` in between — panics on a correctly sized 4-byte screen buffer,
because `copy_from_slice` gets the empty default colour.  So the grid
evaluator does have a failure mode besides `usize` overflow in `new`. -/
theorem draw_fresh_grid_counterexample :
    MandelbrotGrid.new 1 1 = some sampleGrid ∧
    (List.replicate 4 0).length = 4 * (1 * 1) ∧
    sampleGrid.draw (List.replicate 4 0) = none :=
  ⟨rfl, rfl, rfl⟩

/-- C5 (amended): `MandelbrotGrid.new w h` panics exactly when
`w * h` overflows `usize`; `update` never panics on a grid satisfying the
constructor invariant; and `draw` on a screen buffer of length
`4 * width * height` never panics on a grid from `new` **once `update` has
run at least once** — the claim as stated fails for a fresh grid, whose
default-initialised colours are empty (see the counterexample). -/
theorem grid_failure_modes :
    (∀ w h : ℕ, MandelbrotGrid.new w h = none ↔ 2 ^ 64 ≤ w * h) ∧
    (∀ g : MandelbrotGrid, g.width * g.height ≤ g.cells.length → ∃ g', g.update = some g') ∧
    (∀ w h g, MandelbrotGrid.new w h = some g →
      ∃ g', g.update = some g' ∧
        ∀ screen : List ℕ, screen.length = 4 * (w * h) → ∃ out, g'.draw screen = some out) := by
  refine ⟨?_, ?_, ?_⟩
  · intro w h
    simp only [MandelbrotGrid.new]
    split
    · simp
      omega
    · simp
      omega
  · intro g hg
    obtain ⟨g', hu, _⟩ := update_spec g hg
    exact ⟨g', hu⟩
  · intro w h g hnew
    have hg := new_spec w h g hnew
    subst hg
    have hlen : (List.replicate (w * h) Cell.default).length = w * h := List.length_replicate _ _
    have hinv :
        (⟨w, h, List.replicate (w * h) Cell.default, -2.5, 2.5, -2.5, 2.5⟩ :
          MandelbrotGrid).cells.length
          = (⟨w, h, List.replicate (w * h) Cell.default, -2.5, 2.5, -2.5, 2.5⟩ :
            MandelbrotGrid).width
            * (⟨w, h, List.replicate (w * h) Cell.default, -2.5, 2.5, -2.5, 2.5⟩ :
              MandelbrotGrid).height := hlen
    obtain ⟨g', hu, _, _, _, _, _, _, hlen', _⟩ := update_spec _ hinv.ge
    refine ⟨g', hu, ?_⟩
    intro screen hscreen
    have hcolor := update_cells_color_length _ _ hinv hu
    have hlen'' : g'.cells.length = w * h := by
      rw [hlen'] at *
      exact hlen
    obtain ⟨out, hout⟩ := copyCells_some g'.cells screen hcolor (by rw [hlen'', hscreen])
    refine ⟨out, ?_⟩
    rw [MandelbrotGrid.draw, if_pos (by rw [hlen'', hscreen]), hout]

/-- Witness for C5 (amended) on `new 1 1`. -/
theorem grid_failure_modes_witness :
    MandelbrotGrid.new 1 1 = some sampleGrid ∧
    ∃ g', sampleGrid.update = some g' ∧
      ∀ screen : List ℕ, screen.length = 4 * (1 * 1) → ∃ out, g'.draw screen = some out :=
  ⟨rfl, grid_failure_modes.2.2 1 1 sampleGrid rfl⟩

/-- C7: each horizontal pan step (Left or Right key) adds one common offset
of magnitude `x_step = 0.2 * (max_x - min_x)` to both `min_x` and `max_x`
(Left subtracts it, Right adds it) and leaves `min_y`, `max_y`, `width` and
`height` unchanged; symmetrically each vertical pan step (Up or Down key)
shifts `min_y` and `max_y` by `y_step = 0.2 * (max_y - min_y)` and leaves
`min_x`, `max_x`, `width` and `height` unchanged.  The hypothesis is the
constructor invariant, under which the `update()` ending each handler
succeeds. -/
theorem pan_shifts (g : MandelbrotGrid) (hg : g.width * g.height ≤ g.cells.length) :
    (∃ g', panLeft g = some g' ∧
      g'.min_x = g.min_x - (g.max_x - g.min_x) * 0.2 ∧
      g'.max_x = g.max_x - (g.max_x - g.min_x) * 0.2 ∧
      g'.min_y = g.min_y ∧ g'.max_y = g.max_y ∧
      g'.width = g.width ∧ g'.height = g.height) ∧
    (∃ g', panRight g = some g' ∧
      g'.min_x = g.min_x + (g.max_x - g.min_x) * 0.2 ∧
      g'.max_x = g.max_x + (g.max_x - g.min_x) * 0.2 ∧
      g'.min_y = g.min_y ∧ g'.max_y = g.max_y ∧
      g'.width = g.width ∧ g'.height = g.height) ∧
    (∃ g', panUp g = some g' ∧
      g'.min_x = g.min_x ∧ g'.max_x = g.max_x ∧
      g'.min_y = g.min_y - (g.max_y - g.min_y) * 0.2 ∧
      g'.max_y = g.max_y - (g.max_y - g.min_y) * 0.2 ∧
      g'.width = g.width ∧ g'.height = g.height) ∧
    (∃ g', panDown g = some g' ∧
      g'.min_x = g.min_x ∧ g'.max_x = g.max_x ∧
      g'.min_y = g.min_y + (g.max_y - g.min_y) * 0.2 ∧
      g'.max_y = g.max_y + (g.max_y - g.min_y) * 0.2 ∧
      g'.width = g.width ∧ g'.height = g.height) := by
  refine ⟨?_, ?_, ?_, ?_⟩
  · obtain ⟨g', hu, hw, hh, hmx, hMx, hmy, hMy, -, -⟩ :=
      update_spec
        { g with
          min_x := g.min_x - (g.max_x - g.min_x) * 0.2
          max_x := g.max_x - (g.max_x - g.min_x) * 0.2 } hg
    exact ⟨g', hu, hmx, hMx, hmy, hMy, hw, hh⟩
  · obtain ⟨g', hu, hw, hh, hmx, hMx, hmy, hMy, -, -⟩ :=
      update_spec
        { g with
          min_x := g.min_x + (g.max_x - g.min_x) * 0.2
          max_x := g.max_x + (g.max_x - g.min_x) * 0.2 } hg
    exact ⟨g', hu, hmx, hMx, hmy, hMy, hw, hh⟩
  · obtain ⟨g', hu, hw, hh, hmx, hMx, hmy, hMy, -, -⟩ :=
      update_spec
        { g with
          min_y := g.min_y - (g.max_y - g.min_y) * 0.2
          max_y := g.max_y - (g.max_y - g.min_y) * 0.2 } hg
    exact ⟨g', hu, hmx, hMx, hmy, hMy, hw, hh⟩
  · obtain ⟨g', hu, hw, hh, hmx, hMx, hmy, hMy, -, -⟩ :=
      update_spec
        { g with
          min_y := g.min_y + (g.max_y - g.min_y) * 0.2
          max_y := g.max_y + (g.max_y - g.min_y) * 0.2 } hg
    exact ⟨g', hu, hmx, hMx, hmy, hMy, hw, hh⟩

/-- Witness for C7 on the 1×1 grid from `new 1 1`. -/
theorem pan_shifts_witness :
    sampleGrid.width * sampleGrid.height ≤ sampleGrid.cells.length ∧
    ((∃ g', panLeft sampleGrid = some g' ∧
      g'.min_x = sampleGrid.min_x - (sampleGrid.max_x - sampleGrid.min_x) * 0.2 ∧
      g'.max_x = sampleGrid.max_x - (sampleGrid.max_x - sampleGrid.min_x) * 0.2 ∧
      g'.min_y = sampleGrid.min_y ∧ g'.max_y = sampleGrid.max_y ∧
      g'.width = sampleGrid.width ∧ g'.height = sampleGrid.height) ∧
    (∃ g', panRight sampleGrid = some g' ∧
      g'.min_x = sampleGrid.min_x + (sampleGrid.max_x - sampleGrid.min_x) * 0.2 ∧
      g'.max_x = sampleGrid.max_x + (sampleGrid.max_x - sampleGrid.min_x) * 0.2 ∧
      g'.min_y = sampleGrid.min_y ∧ g'.max_y = sampleGrid.max_y ∧
      g'.width = sampleGrid.width ∧ g'.height = sampleGrid.height) ∧
    (∃ g', panUp sampleGrid = some g' ∧
      g'.min_x = sampleGrid.min_x ∧ g'.max_x = sampleGrid.max_x ∧
      g'.min_y = sampleGrid.min_y - (sampleGrid.max_y - sampleGrid.min_y) * 0.2 ∧
      g'.max_y = sampleGrid.max_y - (sampleGrid.max_y - sampleGrid.min_y) * 0.2 ∧
      g'.width = sampleGrid.width ∧ g'.height = sampleGrid.height) ∧
    (∃ g', panDown sampleGrid = some g' ∧
      g'.min_x = sampleGrid.min_x ∧ g'.max_x = sampleGrid.max_x ∧
      g'.min_y = sampleGrid.min_y + (sampleGrid.max_y - sampleGrid.min_y) * 0.2 ∧
      g'.max_y = sampleGrid.max_y + (sampleGrid.max_y - sampleGrid.min_y) * 0.2 ∧
      g'.width = sampleGrid.width ∧ g'.height = sampleGrid.height)) :=
  ⟨by decide, pan_shifts sampleGrid (by decide)⟩

/-- C8: the resolution is fixed.  A grid from `MandelbrotGrid.new w h` has
`width = w`, `height = h` and `cells.len() = w * h`, and every grid
reachable from it by the event-loop operations (`update` and the six
pan/zoom key handlers, each ending in `update`) keeps exactly those values.
`draw` takes the grid immutably in this embedding — the source writes only
the screen buffer — so it cannot change them. -/
theorem resolution_fixed (w h : ℕ) (g : MandelbrotGrid)
    (hnew : MandelbrotGrid.new w h = some g) (g₁ : MandelbrotGrid)
    (hreach : Relation.ReflTransGen GridStep g g₁) :
    g.width = w ∧ g.height = h ∧ g.cells.length = w * h ∧
    g₁.width = w ∧ g₁.height = h ∧ g₁.cells.length = w * h := by
  have hg := new_spec w h g hnew
  subst hg
  have key : g₁.width = w ∧ g₁.height = h ∧ g₁.cells.length = w * h := by
    induction hreach with
    | refl => exact ⟨rfl, rfl, List.length_replicate _ _⟩
    | tail hab hbc ih =>
      obtain ⟨h1, h2, h3⟩ := gridStep_preserves hbc
      exact ⟨h1.trans ih.1, h2.trans ih.2.1, h3.trans ih.2.2⟩
  exact ⟨rfl, rfl, List.length_replicate _ _, key⟩

/-- Witness for C8 on `new 1 1` with the empty reachability chain. -/
theorem resolution_fixed_witness :
    MandelbrotGrid.new 1 1 = some sampleGrid ∧
    (sampleGrid.width = 1 ∧ sampleGrid.height = 1 ∧ sampleGrid.cells.length = 1 * 1 ∧
      sampleGrid.width = 1 ∧ sampleGrid.height = 1 ∧ sampleGrid.cells.length = 1 * 1) :=
  ⟨rfl, resolution_fixed 1 1 sampleGrid rfl sampleGrid Relation.ReflTransGen.refl⟩

/-- C9: on a grid fresh from `new` — `update` never called — every cell's
colour vector is empty, length 0: the derived `Cell::default`, not
`Cell::new`'s 4-byte `vec![0, 0, 0, 0]`, populates the grid (each colour
differs from `Cell::new`'s).  Hence, when the grid has at least one pixel,
`draw` on a screen buffer of length `4 * width * height` fails: the
per-cell `copy_from_slice` has mismatched lengths. -/
theorem fresh_grid_draw_fails (w h : ℕ) (g : MandelbrotGrid) (screen : List ℕ)
    (hnew : MandelbrotGrid.new w h = some g) (hpos : 0 < w * h)
    (hscreen : screen.length = 4 * (w * h)) :
    (∀ c ∈ g.cells, c.color = [] ∧ c.color ≠ Cell.new.color) ∧
    g.draw screen = none := by
  have hg := new_spec w h g hnew
  subst hg
  constructor
  · intro c hc
    have hcd := List.eq_of_mem_replicate hc
    subst hcd
    exact ⟨rfl, by simp [Cell.default, Cell.new]⟩
  · obtain ⟨n, hn⟩ : ∃ n, w * h = n + 1 := ⟨w * h - 1, by omega⟩
    show (if screen.length = 4 * (List.replicate (w * h) Cell.default).length then
        copyCells (List.replicate (w * h) Cell.default) screen else none) = none
    rw [if_pos (by rw [List.length_replicate, hscreen]), hn, List.replicate_succ]
    show (if screen.length < 4 then some screen
      else if Cell.default.color.length = 4 then
        (copyCells (List.replicate n Cell.default) (screen.drop 4)).map
          fun rest => Cell.default.color ++ rest
      else none) = none
    rw [if_neg (by rw [hscreen, hn]; omega), if_neg (by decide)]

/-- Witness for C9 on `new 1 1` with a 4-byte screen buffer. -/
theorem fresh_grid_draw_fails_witness :
    MandelbrotGrid.new 1 1 = some sampleGrid ∧ 0 < 1 * 1 ∧
    (List.replicate 4 0).length = 4 * (1 * 1) ∧
    ((∀ c ∈ sampleGrid.cells, c.color = [] ∧ c.color ≠ Cell.new.color) ∧
      sampleGrid.draw (List.replicate 4 0) = none) :=
  ⟨rfl, by decide, rfl,
    fresh_grid_draw_fails 1 1 sampleGrid (List.replicate 4 0) rfl (by decide) rfl⟩

/-- C10: a grid returned by `MandelbrotGrid.new`, when `new` does not panic,
has the initial viewport `min_x = -2.5`, `max_x = 2.5`, `min_y = -2.5`,
`max_y = 2.5`, and every cell has `steps = 0`. -/
theorem new_grid_initial (w h : ℕ) (g : MandelbrotGrid)
    (hnew : MandelbrotGrid.new w h = some g) :
    g.min_x = -2.5 ∧ g.max_x = 2.5 ∧ g.min_y = -2.5 ∧ g.max_y = 2.5 ∧
    ∀ c ∈ g.cells, c.steps = 0 := by
  have hg := new_spec w h g hnew
  subst hg
  refine ⟨rfl, rfl, rfl, rfl, ?_⟩
  intro c hc
  rw [List.eq_of_mem_replicate hc]
  rfl

/-- Witness for C10 on `new 1 1`. -/
theorem new_grid_initial_witness :
    MandelbrotGrid.new 1 1 = some sampleGrid ∧
    (sampleGrid.min_x = -2.5 ∧ sampleGrid.max_x = 2.5 ∧ sampleGrid.min_y = -2.5 ∧
      sampleGrid.max_y = 2.5 ∧ ∀ c ∈ sampleGrid.cells, c.steps = 0) :=
  ⟨rfl, new_grid_initial 1 1 sampleGrid rfl⟩
